import Mathlib

set_option linter.unusedVariables false

/-! Verification of the AArch64 Data-Processing–Immediate decoder
(`src/libs/a2ir/src/aarch64_reader.rs`).

Modelling conventions for the shallow embedding:
* Machine integers (`u8`, `u32`, `u64`) are `Nat` with explicit masking;
  wrap-around is written with `% 2^w` (helper `sub8` for wrapping `u8`
  subtraction).  `i64` values are `Int`.
* Rust release semantics are used for primitive operations: the shift
  amount of a 64-bit shift is masked modulo 64, subtraction wraps.
* The explicit Rust `panic!` calls of the source are modelled by the
  result constructor `DpiResult.fatal` carrying the panic message.
* The `highest_bit` loop of the source (`while x != 1 do x >>= 1`) does not
  terminate on input `0`; it is modelled with fuel, where `none` for every
  fuel (proved below for input `0`) models divergence, propagated as
  `DpiResult.diverge`.
* The `f64` field `fimm` is modelled by its bit pattern as a `Nat`; the
  decoder under study never writes it (it only ever holds the default 0.0,
  bit pattern 0).
* The `Op` enumeration of the source has several hundred variants; only
  the variants reachable from `data_proc_imm` (plus the `A64_UNKNOWN` /
  `A64_ERROR` / `A64_UDF` markers) are reproduced here. -/

namespace A64

/-! ## Constant tables (`Registries`, `FlagMasks`, `Size`, `ExtendType`, `Shift`) -/

/-- `Registries::ZERO_REG`: register 31 read as the zero register. -/
def ZERO_REG : Nat := 31

/-- `Registries::STACK_POINTER`: sentinel (outside 0..31) for register 31
read as the stack pointer. -/
def STACK_POINTER : Nat := 100

/-- `FlagMasks::W32 = 1 << 0`. -/
def W32 : Nat := 1

/-- `FlagMasks::SET_FLAGS = 1 << 1`. -/
def SET_FLAGS : Nat := 2

/-- `Size::SZ_B = 0b00`. -/
def SZ_B : Nat := 0
/-- `Size::SZ_H = 0b01`. -/
def SZ_H : Nat := 1
/-- `Size::SZ_W = 0b10`. -/
def SZ_W : Nat := 2
/-- `Size::SZ_X = 0b11`. -/
def SZ_X : Nat := 3

/-- `ExtendType::UXTB = (0 << 2) | SZ_B`. -/
def UXTB : Nat := (0 <<< 2) ||| SZ_B
/-- `ExtendType::UXTH = (0 << 2) | SZ_H`. -/
def UXTH : Nat := (0 <<< 2) ||| SZ_H
/-- `ExtendType::UXTW = (0 << 2) | SZ_W`. -/
def UXTW : Nat := (0 <<< 2) ||| SZ_W
/-- `ExtendType::SXTB = (1 << 2) | SZ_B`. -/
def SXTB : Nat := (1 <<< 2) ||| SZ_B
/-- `ExtendType::SXTH = (1 << 2) | SZ_H`. -/
def SXTH : Nat := (1 <<< 2) ||| SZ_H
/-- `ExtendType::SXTW = (1 << 2) | SZ_W`. -/
def SXTW : Nat := (1 <<< 2) ||| SZ_W

/-- `Shift::SH_LSL = 0b00` (default value of the `Inst.shift` field). -/
def SH_LSL : Nat := 0

/-! ## Operation codes (subset reachable from `data_proc_imm`) -/

/-- The `Op` enumeration, restricted to the Data-Processing–Immediate
variants plus the unknown/error/udf markers. -/
inductive Op
  | A64_UNKNOWN
  | A64_ERROR
  | A64_UDF
  | A64_ADR
  | A64_ADRP
  | A64_ADD_IMM
  | A64_CMN_IMM
  | A64_MOV_SP
  | A64_SUB_IMM
  | A64_CMP_IMM
  | A64_AND_IMM
  | A64_ORR_IMM
  | A64_EOR_IMM
  | A64_TST_IMM
  | A64_MOVK
  | A64_MOV_IMM
  | A64_SBFM
  | A64_ASR_IMM
  | A64_SBFIZ
  | A64_SBFX
  | A64_BFM
  | A64_BFC
  | A64_BFI
  | A64_BFXIL
  | A64_UBFM
  | A64_LSL_IMM
  | A64_LSR_IMM
  | A64_UBFIZ
  | A64_UBFX
  | A64_EXTEND
  | A64_EXTR
  | A64_ROR_IMM
  deriving DecidableEq

/-! ## The instruction record and its substructures -/

/-- `struct Movk { imm16: u32, lsl: u32 }`. -/
structure Movk where
  imm16 : Nat
  lsl : Nat
  deriving DecidableEq

/-- `struct Bfm { lsb: u32, width: u32 }`. -/
structure Bfm where
  lsb : Nat
  width : Nat
  deriving DecidableEq

/-- `struct Ccmp { nzcv: u32, imm5: u32 }`. -/
structure Ccmp where
  nzcv : Nat
  imm5 : Nat
  deriving DecidableEq

/-- `struct Sys { op1: u16, op2: u16, crn: u16, crm: u16 }`. -/
structure Sys where
  op1 : Nat
  op2 : Nat
  crn : Nat
  crm : Nat
  deriving DecidableEq

/-- `struct MsrImm { psfld: u32, imm: u32 }`. -/
structure MsrImm where
  psfld : Nat
  imm : Nat
  deriving DecidableEq

/-- `struct Tbz { offset: i32, bit: u32 }`. -/
structure Tbz where
  offset : Int
  bit : Nat
  deriving DecidableEq

/-- `struct Rmif { mask: u32, ror: u32 }`. -/
structure Rmif where
  mask : Nat
  ror : Nat
  deriving DecidableEq

/-- `struct Extend { typ: u32, lsl: u32 }`. -/
structure Extend where
  typ : Nat
  lsl : Nat
  deriving DecidableEq

/-- `struct LdstOrder { load: u16, store: u16, rs: u8 }`. -/
structure LdstOrder where
  load : Nat
  store : Nat
  rs : Nat
  deriving DecidableEq

/-- `struct SimdLdst { nreg: u32, index: u16, offset: i16 }`. -/
structure SimdLdst where
  nreg : Nat
  index : Nat
  offset : Int
  deriving DecidableEq

/-- `struct Fcvt { mode: u32, fbits: u16, sgn: u16 }`. -/
structure Fcvt where
  mode : Nat
  fbits : Nat
  sgn : Nat
  deriving DecidableEq

/-- `struct Frint { mode: u32, bits: u32 }`. -/
structure Frint where
  mode : Nat
  bits : Nat
  deriving DecidableEq

/-- `struct InsElem { dst: u32, src: u32 }`. -/
structure InsElem where
  dst : Nat
  src : Nat
  deriving DecidableEq

/-- `struct FcmlaElem { idx: u32, rot: u32 }`. -/
structure FcmlaElem where
  idx : Nat
  rot : Nat
  deriving DecidableEq

/-- `struct Inst`: the canonical instruction record.  `fimm` is the bit
pattern of the `f64` field (never written by this decoder). -/
structure Inst where
  op : Op
  flags : Nat
  rd : Nat
  rn : Nat
  rm : Nat
  rt2 : Nat
  rs : Nat
  imm : Nat
  fimm : Nat
  offset : Int
  ra : Nat
  error : String
  movk : Movk
  bfm : Bfm
  ccmp : Ccmp
  sys : Sys
  msr_imm : MsrImm
  tbz : Tbz
  shift : Nat
  rmif : Rmif
  extend : Extend
  ldst_order : LdstOrder
  simd_ldst : SimdLdst
  fcvt : Fcvt
  frint : Frint
  ins_elem : InsElem
  fcmla_elem : FcmlaElem
  deriving DecidableEq

/-- `const UNKNOWN_INST`: the default record. -/
def UNKNOWN_INST : Inst :=
  { op := .A64_UNKNOWN
    flags := 0
    rd := 0
    rn := 0
    rm := 0
    rt2 := 0
    rs := 0
    imm := 0
    fimm := 0
    offset := 0
    ra := 0
    error := ""
    movk := { imm16 := 0, lsl := 0 }
    bfm := { lsb := 0, width := 0 }
    ccmp := { nzcv := 0, imm5 := 0 }
    sys := { op1 := 0, op2 := 0, crn := 0, crm := 0 }
    msr_imm := { psfld := 0, imm := 0 }
    tbz := { offset := 0, bit := 0 }
    shift := SH_LSL
    rmif := { mask := 0, ror := 0 }
    extend := { typ := 0, lsl := 0 }
    ldst_order := { load := 0, store := 0, rs := ZERO_REG }
    simd_ldst := { nreg := 0, index := 0, offset := 0 }
    fcvt := { mode := 0, fbits := 0, sgn := 0 }
    frint := { mode := 0, bits := 0 }
    ins_elem := { dst := 0, src := 0 }
    fcmla_elem := { idx := 0, rot := 0 } }

/-! ## Register/Flag codec -/

/-- `fad_get_cond(flags) = (flags >> 4) & 0b1111`. -/
def fad_get_cond (flags : Nat) : Nat := (flags >>> 4) &&& 0b1111

/-- `set_cond(flags, cond) = ((cond & 0xF) << 4) | (flags & 0x0F)`. -/
def set_cond (flags cond : Nat) : Nat := ((cond &&& 0xF) <<< 4) ||| (flags &&& 0x0F)

/-- `invert_cond(flags) = set_cond(flags, fad_get_cond(flags) ^ 0b001)`. -/
def invert_cond (flags : Nat) : Nat := set_cond flags (fad_get_cond flags ^^^ 0b001)

/-- `fad_get_addrmode(flags) = (flags >> 5) & 0b111`. -/
def fad_get_addrmode (flags : Nat) : Nat := (flags >>> 5) &&& 0b111

/-- `set_addrmode(flags, mode) = ((mode & 0b111) << 5) | (flags & 0b11111)`. -/
def set_addrmode (flags mode : Nat) : Nat := ((mode &&& 0b111) <<< 5) ||| (flags &&& 0b11111)

/-- `fad_get_mem_extend(flags) = (flags >> 2) & 0b111`. -/
def fad_get_mem_extend (flags : Nat) : Nat := (flags >>> 2) &&& 0b111

/-- `set_mem_extend(flags, memext) = ((memext & 0b111) << 2) | (flags & 0b11100011)`. -/
def set_mem_extend (flags memext : Nat) : Nat :=
  ((memext &&& 0b111) <<< 2) ||| (flags &&& 0b11100011)

/-- `fad_get_vec_arrangement(flags) = (flags >> 2) & 0b111`. -/
def fad_get_vec_arrangement (flags : Nat) : Nat := (flags >>> 2) &&& 0b111

/-- `set_vec_arrangement(flags, va) = ((va & 0b111) << 2) | (flags & 0b11100011)`. -/
def set_vec_arrangement (flags va : Nat) : Nat :=
  ((va &&& 0b111) <<< 2) ||| (flags &&& 0b11100011)

/-- `fad_get_prec(flags) = (flags >> 1) & 0b111`. -/
def fad_get_prec (flags : Nat) : Nat := (flags >>> 1) &&& 0b111

/-- `set_prec(flags, prec) = ((prec & 0b111) << 1) | (flags & 0b11110001)`. -/
def set_prec (flags prec : Nat) : Nat := ((prec &&& 0b111) <<< 1) ||| (flags &&& 0b11110001)

/-- `regRd(binst) = binst & 0b11111` (register 31 = zero register). -/
def regRd (binst : Nat) : Nat := binst &&& 0b11111

/-- `regRdSP(binst)`: register 31 is mapped to the stack-pointer sentinel. -/
def regRdSP (binst : Nat) : Nat :=
  let rd := binst &&& 0b11111
  if rd = 31 then STACK_POINTER else rd

/-- `regRn(binst) = (binst >> 5) & 0b11111`. -/
def regRn (binst : Nat) : Nat := (binst >>> 5) &&& 0b11111

/-- `regRnSP(binst)`: register 31 is mapped to the stack-pointer sentinel. -/
def regRnSP (binst : Nat) : Nat :=
  let rn := (binst >>> 5) &&& 0b11111
  if rn = 31 then STACK_POINTER else rn

/-- `regRm(binst) = (binst >> 16) & 0b11111`. -/
def regRm (binst : Nat) : Nat := (binst >>> 16) &&& 0b11111

/-- `regRmSP(binst)`: register 31 is mapped to the stack-pointer sentinel. -/
def regRmSP (binst : Nat) : Nat :=
  let rm := (binst >>> 16) &&& 0b11111
  if rm = 31 then STACK_POINTER else rm

/-- `sext(x, b)`: sign-extend the `b`-bit number `x` (upper bits zero) to a
signed integer, via `((x as i64) ^ mask) - mask` with `mask = 1 << (b-1)`.
For the arguments the decoder uses (`x < 2^b`, `b = 21`) the `i64`
operations coincide with the `Nat`/`Int` operations used here. -/
def sext (x : Nat) (b : Nat) : Int :=
  (Int.ofNat (x ^^^ (1 <<< (b - 1)))) - Int.ofNat (1 <<< (b - 1))

/-! ## Bitmask reconstruction (`highest_bit`, `ror`, `decode_bitmask`) -/

/-- Fuelled version of the `highest_bit` loop
(`while x != 1 { x >>= 1; n += 1 }`).  `none` means the loop did not exit
within the given fuel; for input `0` it never exits (see
`highest_bit_go_zero`). -/
def highest_bit_go : Nat → Nat → Nat → Option Nat
  | 0, _, _ => none
  | fuel + 1, x, n => if x = 1 then some n else highest_bit_go fuel (x >>> 1) n.succ

/-- `highest_bit(x)`: 0-based index of the highest set bit.  Fuel 33 is
enough for every nonzero `u32`; input `0` yields `none` (divergence). -/
def highest_bit (x : Nat) : Option Nat := highest_bit_go 33 x 0

/-- `ror(x, n, len)`: rotate the `len`-bit number `x` right by `n` places:
`raw = (x >> n) | (x << (len - n))`, truncated to `len` bits unless
`len == 64`.  The `u64` shifts mask their amount modulo 64 and wrap
(Rust release semantics). -/
def ror (x n len : Nat) : Nat :=
  let raw := (x >>> (n % 64)) ||| ((x <<< ((len - n) % 64)) % 2 ^ 64)
  if len = 64 then raw else raw &&& ((1 <<< len) - 1)

/-- The `levels`/`welem` loops of `decode_bitmask`: `k` iterations of
`acc = (acc << 1) | 1` starting from 0, i.e. a run of `k` ones. -/
def ones_run : Nat → Nat
  | 0 => 0
  | k + 1 => (ones_run k <<< 1) ||| 1

/-- The replication loop of `decode_bitmask`: `k` iterations of
`wmask = (wmask << esize) | welem` starting from 0, in `u64` arithmetic
(shift amount masked modulo 64, result wrapped). -/
def replicate_go : Nat → Nat → Nat → Nat
  | 0, _, _ => 0
  | k + 1, esize, welem =>
    (((replicate_go k esize welem) <<< (esize % 64)) % 2 ^ 64) ||| welem

/-- `decode_bitmask(immN, imms, immr, w32)`: reconstruct the logical
immediate (the `wmask` of the A64 `DecodeBitMasks` pseudocode).
`none` models the divergence of `highest_bit(0)`.
The `for i in (0..M).step_by(esize)` loop runs `⌈M / esize⌉` times. -/
def decode_bitmask (immN imms immr : Nat) (w32 : Bool) : Option Nat :=
  let M : Nat := if w32 then 32 else 64
  let immN := immN &&& 1
  let imms := imms &&& 0b111111
  let immr := immr &&& 0b111111
  match highest_bit ((immN <<< 6) ||| ((imms ^^^ 255) &&& 0b111111)) with
  | none => none
  | some len =>
    let levels := ones_run len
    let S := imms &&& levels
    let R := immr &&& levels
    let esize := 1 <<< len
    let welem := ones_run (S + 1)
    let welem := ror welem R esize
    some (replicate_go ((M + esize - 1) / esize) esize welem)

/-! ## Decode results

`DpiResult.ok` is a normally returned record, `DpiResult.fatal` models an
explicit Rust `panic!` with its message, and `DpiResult.diverge` models a
loop that never terminates. -/

/-- Result of a decode call: a record, a panic, or divergence. -/
inductive DpiResult
  | ok (inst : Inst)
  | fatal (msg : String)
  | diverge
  deriving DecidableEq

/-- Wrapping `u8` subtraction (Rust release semantics); both arguments
below 256. -/
def sub8 (a b : Nat) : Nat := (a + 256 - b) % 256

/-! ## Bitfield alias resolver (`find_bfm_alias`) -/

/-- `find_bfm_alias(op, w32, rd, rn, immr, imms)`: resolve an SBFM/BFM/UBFM
encoding to its alias.  The `panic!` for the nonexistent UXTW alias is
`DpiResult.fatal`. -/
def find_bfm_alias (op : Op) (w32 : Bool) (rd rn immr imms : Nat) : DpiResult :=
  let all_ones : Nat := if w32 then 31 else 63
  let bits : Nat := if w32 then 32 else 64
  let base : Inst := { UNKNOWN_INST with
    rd := rd
    rn := rn
    flags := if w32 then UNKNOWN_INST.flags ||| W32 else UNKNOWN_INST.flags }
  if op = .A64_BFM then
    if imms ≥ immr then
      .ok { base with op := .A64_BFXIL, bfm := { lsb := immr, width := imms - immr + 1 } }
    else
      .ok { base with op := if rn = ZERO_REG then .A64_BFC else .A64_BFI
                      bfm := { lsb := sub8 bits immr, width := imms + 1 } }
  else
    let sign := op = .A64_SBFM
    if ¬sign ∧ imms + 1 = immr ∧ imms ≠ all_ones then
      .ok { base with op := .A64_LSL_IMM, imm := sub8 all_ones imms }
    else if imms = all_ones then
      .ok { base with op := if sign then .A64_ASR_IMM else .A64_LSR_IMM, imm := immr }
    else if imms < immr then
      .ok { base with op := if sign then .A64_SBFIZ else .A64_UBFIZ
                      bfm := { lsb := sub8 bits immr, width := imms + 1 } }
    else if immr = 0 ∧ imms = 7 then
      .ok { base with op := .A64_EXTEND
                      extend := { typ := if sign then SXTB else UXTB, lsl := 0 } }
    else if immr = 0 ∧ imms = 15 then
      .ok { base with op := .A64_EXTEND
                      extend := { typ := if sign then SXTH else UXTH, lsl := 0 } }
    else if immr = 0 ∧ imms = 31 then
      if sign then
        .ok { base with op := .A64_EXTEND, extend := { typ := SXTW, lsl := 0 } }
      else
        .fatal "find_bfm_alias: there is no UXTW instruction"
    else
      .ok { base with op := if sign then .A64_SBFX else .A64_UBFX
                      bfm := { lsb := immr, width := imms - immr + 1 } }

/-! ## Class dispatcher and sub-decoders (`data_proc_imm`) -/

/-- The `OpKind` selector enumeration. -/
inductive OpKind
  | Unknown
  | PCRelAddr
  | AddSubTags
  | AddSub
  | Logic
  | Move
  | Bitfield
  | Extract
  deriving DecidableEq

/-- The `op01` → kind table of `data_proc_imm` (`op01 = (binst >> 22) & 0b1111`).
The catch-all is unreachable for 4-bit input. -/
def opKindOf : Nat → OpKind
  | 0 | 1 | 2 | 3 => .PCRelAddr
  | 6 | 7 => .AddSubTags
  | 4 | 5 => .AddSub
  | 8 | 9 => .Logic
  | 10 | 11 => .Move
  | 12 | 13 => .Bitfield
  | 14 | 15 => .Extract
  | _ => .Unknown

/-- The PC-relative-addressing arm of `data_proc_imm`. -/
def dpi_pcrel (w top3 flags0 : Nat) : Inst :=
  let op : Op := if top3 &&& 0b100 = 0 then .A64_ADR else .A64_ADRP
  let flags := flags0 &&& 0b11111110
  let immhi := w &&& (0b1111111111111111111 <<< 5)
  let immlo := top3 &&& 0b011
  let uimm := (immhi >>> (5 - 2)) ||| immlo
  let scale : Int := if op = .A64_ADRP then 4096 else 1
  let simm : Int := scale * sext uimm 21
  { UNKNOWN_INST with op := op, flags := flags, offset := simm, rd := regRd w }

/-- The add/subtract-immediate arm of `data_proc_imm`. -/
def dpi_addsub (w top3 flags0 : Nat) : Inst :=
  let op0 : Op := if top3 &&& 0b010 = 0 then .A64_ADD_IMM else .A64_SUB_IMM
  let flags := if top3 &&& 0b001 ≠ 0 then flags0 ||| SET_FLAGS else flags0
  let unshifted_imm := (w >>> 10) &&& 0b111111111111
  let shift_by_12 : Bool := w &&& (1 <<< 22) != 0
  let imm := if shift_by_12 then unshifted_imm <<< 12 else unshifted_imm
  let rd := if flags &&& SET_FLAGS ≠ 0 then regRd w else regRdSP w
  let rn := regRnSP w
  let op1 : Op :=
    if rd = ZERO_REG ∧ flags &&& SET_FLAGS ≠ 0 then
      match op0 with
      | .A64_ADD_IMM => .A64_CMN_IMM
      | .A64_SUB_IMM => .A64_CMP_IMM
      | o => o
    else if op0 = .A64_ADD_IMM ∧ shift_by_12 = false ∧ unshifted_imm = 0 ∧
        (rd = STACK_POINTER ∨ rn = STACK_POINTER) then
      .A64_MOV_SP
    else op0
  { UNKNOWN_INST with op := op1, flags := flags, imm := imm, rd := rd, rn := rn }

/-- The logical-immediate arm of `data_proc_imm`.  The final `panic!` arm
of the Rust `match` is unreachable (`top3 & 0b011 < 4`). -/
def dpi_logic (w top3 flags0 : Nat) : DpiResult :=
  let sel := top3 &&& 0b011
  if sel ≥ 4 then .fatal "Unexpected Logic Operator" else
  let op : Op :=
    if sel = 0 then .A64_AND_IMM
    else if sel = 1 then .A64_ORR_IMM
    else if sel = 2 then .A64_EOR_IMM
    else if regRd w = ZERO_REG then .A64_TST_IMM else .A64_AND_IMM
  let flags := if sel = 3 then flags0 ||| SET_FLAGS else flags0
  let immr := (w >>> 16) &&& 0b111111
  let imms := (w >>> 10) &&& 0b111111
  let N := if flags &&& W32 ≠ 0 then 0 else (w >>> 22) &&& 1
  match decode_bitmask N imms immr (flags &&& W32 != 0) with
  | none => .diverge
  | some imm =>
    let rd := if flags &&& SET_FLAGS ≠ 0 then regRd w else regRdSP w
    .ok { UNKNOWN_INST with op := op, flags := flags, imm := imm, rd := rd, rn := regRn w }

/-- The move-wide-immediate arm of `data_proc_imm`.  `hw = 0b01` is the
architecturally reserved pattern and returns the pristine `UNKNOWN_INST`
(the Rust `return UNKNOWN_INST`, bypassing the flags already set). -/
def dpi_move (w top3 flags0 : Nat) : Inst :=
  let hw := (w >>> 21) &&& 0b11
  let shift := 16 * hw
  let imm16 := (w >>> 5) &&& 0xFFFF
  let sel := top3 &&& 0b011
  if sel = 0 then
    { UNKNOWN_INST with op := .A64_MOV_IMM, flags := flags0
                        imm := (imm16 <<< shift) ^^^ (2 ^ 64 - 1), rd := regRd w }
  else if sel = 1 then UNKNOWN_INST
  else if sel = 2 then
    { UNKNOWN_INST with op := .A64_MOV_IMM, flags := flags0
                        imm := imm16 <<< shift, rd := regRd w }
  else if sel = 3 then
    { UNKNOWN_INST with op := .A64_MOVK, flags := flags0
                        movk := { imm16 := imm16, lsl := shift }, rd := regRd w }
  else
    { UNKNOWN_INST with flags := flags0, rd := regRd w }

/-- The bitfield arm of `data_proc_imm`; `top3 & 0b011 = 0b11` hits the
Rust `panic!`. -/
def dpi_bitfield (w top3 flags0 : Nat) : DpiResult :=
  let sel := top3 &&& 0b011
  if sel = 0 ∨ sel = 1 ∨ sel = 2 then
    let op : Op := if sel = 0 then .A64_SBFM else if sel = 1 then .A64_BFM else .A64_UBFM
    let w32 : Bool := flags0 &&& W32 != 0
    let immr := (w >>> 16) &&& 0b111111
    let imms := (w >>> 10) &&& 0b111111
    find_bfm_alias op w32 (regRd w) (regRn w) immr imms
  else
    .fatal "data_proc_imm/Bitfield: neither SBFM, BFM or UBFM"

/-- The extract arm of `data_proc_imm`. -/
def dpi_extract (w top3 flags0 : Nat) : Inst :=
  let rn := regRn w
  let rm := regRm w
  let imm := (w >>> 10) &&& 0b111111
  if rn = rm then
    { UNKNOWN_INST with op := .A64_ROR_IMM, flags := flags0, imm := imm
                        rd := regRd w, rn := rn, rm := 0 }
  else
    { UNKNOWN_INST with op := .A64_EXTR, flags := flags0, imm := imm
                        rd := regRd w, rn := rn, rm := rm }

/-- `data_proc_imm(binst)`: decode one word of the Data-Processing–Immediate
class.  Bit 31 clear sets the `W32` flag before dispatch; the add/sub-with-tags
family hits the Rust `panic!`. -/
def data_proc_imm (w : Nat) : DpiResult :=
  let op01 := (w >>> 22) &&& 0b1111
  let top3 := (w >>> 29) &&& 0b111
  let flags0 := if top3 &&& 0b100 = 0 then W32 else 0
  match opKindOf op01 with
  | .Unknown => .ok UNKNOWN_INST
  | .PCRelAddr => .ok (dpi_pcrel w top3 flags0)
  | .AddSubTags => .fatal "ADDG, SUBG not supported"
  | .AddSub => .ok (dpi_addsub w top3 flags0)
  | .Logic => dpi_logic w top3 flags0
  | .Move => .ok (dpi_move w top3 flags0)
  | .Bitfield => dpi_bitfield w top3 flags0
  | .Extract => .ok (dpi_extract w top3 flags0)

/-- Spec-side left rotation within a `len`-bit element. -/
def rotl (x n len : Nat) : Nat := ((x <<< n) ||| (x >>> (len - n))) % 2 ^ len

/-- Pattern-length input value `(N << 6) | (~imms & 0x3F)` of `decode_bitmask`. -/
def bm_v (N imms : Nat) : Nat := (N <<< 6) ||| (imms ^^^ 63)

/-- Pattern length `len` (index of the highest set bit of `bm_v`). -/
def bm_len (N imms : Nat) : Nat := (highest_bit (bm_v N imms)).getD 0

/-- `levels`: a run of `len` ones. -/
def bm_levels (N imms : Nat) : Nat := (1 <<< bm_len N imms) - 1

/-- `S = imms & levels`. -/
def bm_S (N imms : Nat) : Nat := imms &&& bm_levels N imms

/-- `R = immr & levels`. -/
def bm_R (N imms immr : Nat) : Nat := immr &&& bm_levels N imms

/-- `esize = 1 << len`. -/
def bm_esize (N imms : Nat) : Nat := 1 <<< bm_len N imms

/-- The six-rule first-match-wins cascade as the spec states it
(spec section 4.5 / claim C3), written rule by rule. -/
def find_bfm_alias_spec (op : Op) (w32 : Bool) (rd rn immr imms : Nat) : DpiResult :=
  let all_ones : Nat := if w32 then 31 else 63
  let bits : Nat := if w32 then 32 else 64
  let signed := op = .A64_SBFM
  let base : Inst := { UNKNOWN_INST with
    rd := rd
    rn := rn
    flags := if w32 then UNKNOWN_INST.flags ||| W32 else UNKNOWN_INST.flags }
  -- rule 1: BFM
  if op = .A64_BFM then
    if imms ≥ immr then
      .ok { base with op := .A64_BFXIL, bfm := { lsb := immr, width := imms - immr + 1 } }
    else if rn = ZERO_REG then
      .ok { base with op := .A64_BFC, bfm := { lsb := sub8 bits immr, width := imms + 1 } }
    else
      .ok { base with op := .A64_BFI, bfm := { lsb := sub8 bits immr, width := imms + 1 } }
  -- rule 2: unsigned LSL
  else if ¬signed ∧ imms + 1 = immr ∧ imms ≠ all_ones then
    .ok { base with op := .A64_LSL_IMM, imm := sub8 all_ones imms }
  -- rule 3: ASR/LSR
  else if imms = all_ones then
    .ok { base with op := if signed then .A64_ASR_IMM else .A64_LSR_IMM, imm := immr }
  -- rule 4: SBFIZ/UBFIZ
  else if imms < immr then
    .ok { base with op := if signed then .A64_SBFIZ else .A64_UBFIZ
                    bfm := { lsb := sub8 bits immr, width := imms + 1 } }
  -- rule 5: extend aliases
  else if immr = 0 ∧ (imms = 7 ∨ imms = 15 ∨ imms = 31) then
    if imms = 7 then
      .ok { base with op := .A64_EXTEND
                      extend := { typ := if signed then SXTB else UXTB, lsl := 0 } }
    else if imms = 15 then
      .ok { base with op := .A64_EXTEND
                      extend := { typ := if signed then SXTH else UXTH, lsl := 0 } }
    else if signed then
      .ok { base with op := .A64_EXTEND, extend := { typ := SXTW, lsl := 0 } }
    else
      .fatal "find_bfm_alias: there is no UXTW instruction"
  -- rule 6: SBFX/UBFX
  else
    .ok { base with op := if signed then .A64_SBFX else .A64_UBFX
                    bfm := { lsb := immr, width := imms - immr + 1 } }

/-- The words of the Data-Processing–Immediate class on which `data_proc_imm`
does not return a record: the add/sub-with-tags family and the bitfield
`opc = 0b11` pattern (Rust `panic!`s), the 64-bit `UBFM immr=0, imms=31`
zero-extend-word encoding (Rust `panic!`: no UXTW alias), and
logical-immediate words whose `(N << 6) | (~imms & 0x3F)` value is zero
(`highest_bit(0)` never terminates). -/
def dpi_bad (w : Nat) : Prop :=
  ((w >>> 22) &&& 15 = 6 ∨ (w >>> 22) &&& 15 = 7) ∨
  (((w >>> 22) &&& 15 = 12 ∨ (w >>> 22) &&& 15 = 13) ∧ ((w >>> 29) &&& 7) &&& 3 = 3) ∨
  (((w >>> 22) &&& 15 = 12 ∨ (w >>> 22) &&& 15 = 13) ∧ ((w >>> 29) &&& 7) &&& 3 = 2 ∧
    ((w >>> 29) &&& 7) &&& 4 ≠ 0 ∧ (w >>> 16) &&& 63 = 0 ∧ (w >>> 10) &&& 63 = 31) ∨
  (((w >>> 22) &&& 15 = 8 ∨ (w >>> 22) &&& 15 = 9) ∧
    ((if ((w >>> 29) &&& 7) &&& 4 = 0 then 0 else (w >>> 22) &&& 1) <<< 6) |||
      (((w >>> 10) &&& 63) ^^^ 63) = 0)



theorem shiftLeft_or_eq_add {a b n : Nat} (hb : b < 2 ^ n) :
    (a <<< n) ||| b = a * 2 ^ n + b := by
  apply Nat.eq_of_testBit_eq
  intro j
  rw [Nat.mul_comm a (2 ^ n), Nat.testBit_mul_pow_two_add a hb j]
  simp only [Nat.testBit_or, Nat.testBit_shiftLeft]
  by_cases h : j < n
  · simp [h, Nat.not_le.mpr h]
  · have hbj : b.testBit j = false :=
      Nat.testBit_lt_two_pow (Nat.lt_of_lt_of_le hb (Nat.pow_le_pow_right (by omega) (by omega)))
    simp [h, Nat.not_lt.mp h, hbj]

theorem mod_two_pow_or (a b n : Nat) : (a ||| b) % 2 ^ n = (a % 2 ^ n) ||| (b % 2 ^ n) := by
  apply Nat.eq_of_testBit_eq
  intro j
  simp only [Nat.testBit_mod_two_pow, Nat.testBit_or]
  by_cases h : j < n <;> simp [h]

theorem ones_run_eq (k : Nat) : ones_run k = 2 ^ k - 1 := by
  induction k with
  | zero => rfl
  | succ k ih =>
    have h1 : (1 : Nat) < 2 ^ 1 := by norm_num
    rw [ones_run, ih, shiftLeft_or_eq_add h1]
    have : 1 ≤ 2 ^ k := Nat.one_le_two_pow
    rw [pow_succ]
    omega

theorem ror_canon {x n l : Nat} (hl64 : l ≤ 32 ∨ l = 64) (hn : n < l)
    (hx : x < 2 ^ l) :
    ror x n l = (x % 2 ^ n) * 2 ^ (l - n) + x / 2 ^ n := by
  have h2n : 0 < 2 ^ n := Nat.pos_pow_of_pos n (by norm_num)
  have hq : x / 2 ^ n < 2 ^ (l - n) := by
    apply Nat.div_lt_of_lt_mul
    rw [← pow_add]
    have hln : n + (l - n) = l := by omega
    rw [hln]
    exact hx
  have hr : x % 2 ^ n < 2 ^ n := Nat.mod_lt _ h2n
  have hxs : 2 ^ n * (x / 2 ^ n) + x % 2 ^ n = x := Nat.div_add_mod x (2 ^ n)
  have hmul : x * 2 ^ (l - n) = 2 ^ l * (x / 2 ^ n) + (x % 2 ^ n) * 2 ^ (l - n) := by
    have hl2 : n + (l - n) = l := by omega
    calc x * 2 ^ (l - n) = (2 ^ n * (x / 2 ^ n) + x % 2 ^ n) * 2 ^ (l - n) := by rw [hxs]
    _ = (2 ^ n * 2 ^ (l - n)) * (x / 2 ^ n) + (x % 2 ^ n) * 2 ^ (l - n) := by ring
    _ = 2 ^ l * (x / 2 ^ n) + (x % 2 ^ n) * 2 ^ (l - n) := by rw [← pow_add, hl2]
  have hrl : (x % 2 ^ n) * 2 ^ (l - n) < 2 ^ l := by
    calc (x % 2 ^ n) * 2 ^ (l - n) < 2 ^ n * 2 ^ (l - n) :=
      (Nat.mul_lt_mul_right (Nat.pos_pow_of_pos _ (by norm_num))).mpr hr
    _ = 2 ^ l := by rw [← pow_add]; congr 1; omega
  have hqn : n % 64 = n := Nat.mod_eq_of_lt (by omega)
  rcases hl64 with h32 | h64
  · -- l ≤ 32: no wrap anywhere, mask with 2^l - 1
    have hln : (l - n) % 64 = l - n := Nat.mod_eq_of_lt (by omega)
    have hnowrap : x <<< (l - n) % 2 ^ 64 = x * 2 ^ (l - n) := by
      rw [Nat.shiftLeft_eq]
      apply Nat.mod_eq_of_lt
      calc x * 2 ^ (l - n) < 2 ^ l * 2 ^ (l - n) :=
        (Nat.mul_lt_mul_right (Nat.pos_pow_of_pos _ (by norm_num))).mpr hx
      _ = 2 ^ (l + (l - n)) := by rw [← pow_add]
      _ ≤ 2 ^ 64 := Nat.pow_le_pow_right (by norm_num) (by omega)
    have hlne : l ≠ 64 := by omega
    rw [ror]
    simp only [hqn, hln, hnowrap, if_neg hlne]
    rw [Nat.shiftRight_eq_div_pow, show (1 : Nat) <<< l = 2 ^ l from by rw [Nat.shiftLeft_eq, Nat.one_mul],
      Nat.and_pow_two_sub_one_eq_mod, mod_two_pow_or, hmul,
      Nat.mod_eq_of_lt (Nat.lt_of_lt_of_le hq (Nat.pow_le_pow_right (by norm_num) (by omega))),
      Nat.mul_add_mod, Nat.mod_eq_of_lt hrl, Nat.lor_comm, ← Nat.shiftLeft_eq,
      shiftLeft_or_eq_add hq, Nat.shiftLeft_eq]
  · -- l = 64
    subst h64
    rcases Nat.eq_zero_or_pos n with hn0 | hnpos
    · subst hn0
      rw [ror]
      simp only [Nat.mod_self, Nat.zero_mod, Nat.shiftLeft_zero, Nat.shiftRight_zero,
        Nat.mod_eq_of_lt hx, Nat.or_self, if_pos rfl]
      simp [Nat.mod_one]
    · have hln : (64 - n) % 64 = 64 - n := Nat.mod_eq_of_lt (by omega)
      rw [ror]
      simp only [hqn, hln, if_pos rfl]
      rw [Nat.shiftLeft_eq, hmul, Nat.shiftRight_eq_div_pow, Nat.mul_add_mod,
        Nat.mod_eq_of_lt hrl, Nat.lor_comm, ← Nat.shiftLeft_eq, shiftLeft_or_eq_add hq]
      simp [Nat.shiftLeft_eq]

theorem ror_lt {x n l : Nat} (hl64 : l ≤ 32 ∨ l = 64) (hn : n < l) (hx : x < 2 ^ l) :
    ror x n l < 2 ^ l := by
  rw [ror_canon hl64 hn hx]
  have h2n : 0 < 2 ^ n := Nat.pos_pow_of_pos n (by norm_num)
  have hq : x / 2 ^ n < 2 ^ (l - n) := by
    apply Nat.div_lt_of_lt_mul
    rw [← pow_add]
    have hln : n + (l - n) = l := by omega
    rw [hln]
    exact hx
  have hr : x % 2 ^ n < 2 ^ n := Nat.mod_lt _ h2n
  calc (x % 2 ^ n) * 2 ^ (l - n) + x / 2 ^ n
      < (x % 2 ^ n) * 2 ^ (l - n) + 2 ^ (l - n) := by omega
  _ = (x % 2 ^ n + 1) * 2 ^ (l - n) := by ring
  _ ≤ 2 ^ n * 2 ^ (l - n) := Nat.mul_le_mul_right _ (by omega)
  _ = 2 ^ l := by rw [← pow_add]; congr 1; omega

theorem rotl_ror {x n l : Nat} (hl64 : l ≤ 32 ∨ l = 64) (hn : n < l) (hx : x < 2 ^ l) :
    rotl (ror x n l) n l = x := by
  have h2n : 0 < 2 ^ n := Nat.pos_pow_of_pos n (by norm_num)
  have h2ln : 0 < 2 ^ (l - n) := Nat.pos_pow_of_pos _ (by norm_num)
  have hq : x / 2 ^ n < 2 ^ (l - n) := by
    apply Nat.div_lt_of_lt_mul
    rw [← pow_add]
    have hln : n + (l - n) = l := by omega
    rw [hln]
    exact hx
  have hr : x % 2 ^ n < 2 ^ n := Nat.mod_lt _ h2n
  rw [ror_canon hl64 hn hx, rotl]
  have hshift : ((x % 2 ^ n) * 2 ^ (l - n) + x / 2 ^ n) <<< n
      = 2 ^ l * (x % 2 ^ n) + (x / 2 ^ n) * 2 ^ n := by
    have hl2 : l - n + n = l := by omega
    rw [Nat.shiftLeft_eq]
    calc ((x % 2 ^ n) * 2 ^ (l - n) + x / 2 ^ n) * 2 ^ n
        = (2 ^ (l - n) * 2 ^ n) * (x % 2 ^ n) + (x / 2 ^ n) * 2 ^ n := by ring
    _ = 2 ^ l * (x % 2 ^ n) + (x / 2 ^ n) * 2 ^ n := by rw [← pow_add, hl2]
  have hsr : ((x % 2 ^ n) * 2 ^ (l - n) + x / 2 ^ n) >>> (l - n) = x % 2 ^ n := by
    rw [Nat.shiftRight_eq_div_pow, Nat.mul_comm (x % 2 ^ n) (2 ^ (l - n)),
      Nat.mul_add_div h2ln, Nat.div_eq_of_lt hq]
    omega
  have hqn : (x / 2 ^ n) * 2 ^ n < 2 ^ l := by
    calc (x / 2 ^ n) * 2 ^ n < 2 ^ (l - n) * 2 ^ n :=
      (Nat.mul_lt_mul_right h2n).mpr hq
    _ = 2 ^ l := by rw [← pow_add]; congr 1; omega
  rw [hshift, hsr, mod_two_pow_or, Nat.mul_add_mod, Nat.mod_eq_of_lt hqn,
    Nat.mod_eq_of_lt (Nat.lt_of_lt_of_le hr (Nat.pow_le_pow_right (by norm_num) (by omega))),
    ← Nat.shiftLeft_eq, shiftLeft_or_eq_add hr, Nat.mul_comm]
  exact Nat.div_add_mod x (2 ^ n)

theorem replicate_low {k esize welem : Nat} (hw : welem < 2 ^ esize) (he : esize ≤ 64)
    (hk : k = 0 ∨ esize < 64) :
    replicate_go (k + 1) esize welem % 2 ^ esize = welem := by
  rcases hk with hk0 | hlt
  · subst hk0
    rw [replicate_go, replicate_go]
    simp only [Nat.zero_shiftLeft, Nat.zero_mod, Nat.zero_or]
    exact Nat.mod_eq_of_lt hw
  · have he64 : esize % 64 = esize := Nat.mod_eq_of_lt hlt
    rw [replicate_go, he64, mod_two_pow_or,
      Nat.mod_mod_of_dvd _ (Nat.pow_dvd_pow 2 he), Nat.shiftLeft_eq, Nat.mul_mod_left,
      Nat.zero_or, Nat.mod_eq_of_lt hw]

theorem hb_lt128 : ∀ v, v < 128 → 0 < v → (highest_bit v).isSome = true ∧
    2 ^ ((highest_bit v).getD 0) ≤ v ∧ v < 2 ^ ((highest_bit v).getD 0 + 1) := by decide

theorem xor_mask63 : ∀ x, x < 64 → (x ^^^ 255) &&& 63 = x ^^^ 63 := by decide


/-- C2: for every valid `(N, imms, immr, width)` combination in range
(`(N<<6) | (~imms & 0x3F)` nonzero), the mask returned by `decode_bitmask`,
when rotated left by `R = immr & levels` within its `esize`-bit element and
truncated to `esize` bits, is a contiguous run of exactly
`S+1 = (imms & levels)+1` one bits. -/
theorem C2_bitmask_roundtrip (N imms immr : Nat) (w32 : Bool) (hN : N < 2) (hs : imms < 64)
    (hr : immr < 64) (hv : (N <<< 6) ||| (imms ^^^ 63) ≠ 0) :
    ∃ m, decode_bitmask N imms immr w32 = some m ∧
      rotl (m % 2 ^ bm_esize N imms) (bm_R N imms immr) (bm_esize N imms)
        = 2 ^ (bm_S N imms + 1) - 1 := by
  have hv128 : bm_v N imms < 128 := by
    have h1 : N <<< 6 < 2 ^ 7 := by
      rw [Nat.shiftLeft_eq]
      norm_num
      omega
    have h2 : imms ^^^ 63 < 2 ^ 7 := Nat.xor_lt_two_pow (by omega) (by norm_num)
    calc bm_v N imms < 2 ^ 7 := Nat.or_lt_two_pow h1 h2
    _ = 128 := by norm_num
  have hv0 : 0 < bm_v N imms := Nat.pos_of_ne_zero hv
  obtain ⟨hsome, hle, hlt⟩ := hb_lt128 (bm_v N imms) hv128 hv0
  obtain ⟨lv, hlv⟩ := Option.isSome_iff_exists.mp hsome
  have hlv0 : bm_len N imms = lv := by rw [bm_len, hlv]; rfl
  have hle2 : 2 ^ bm_len N imms ≤ bm_v N imms := hle
  have hlt2 : bm_v N imms < 2 ^ (bm_len N imms + 1) := hlt
  have hlen6 : bm_len N imms ≤ 6 := by
    by_contra hcon
    have h7 : (7 : Nat) ≤ bm_len N imms := by omega
    have h8 : (2 : Nat) ^ 7 ≤ 2 ^ bm_len N imms := Nat.pow_le_pow_right (by norm_num) h7
    have h9 : (2 : Nat) ^ 7 = 128 := by norm_num
    omega
  have hN1 : N &&& 1 = N := by
    rcases (by omega : N = 0 ∨ N = 1) with h | h <;> subst h <;> rfl
  have hs63 : imms &&& 63 = imms := by
    rw [show (63 : Nat) = 2 ^ 6 - 1 from rfl, Nat.and_pow_two_sub_one_eq_mod,
      Nat.mod_eq_of_lt hs]
  have hr63 : immr &&& 63 = immr := by
    rw [show (63 : Nat) = 2 ^ 6 - 1 from rfl, Nat.and_pow_two_sub_one_eq_mod,
      Nat.mod_eq_of_lt hr]
  have hxm : (imms ^^^ 255) &&& 63 = imms ^^^ 63 := xor_mask63 imms hs
  -- abbreviations for the quantities computed inside decode_bitmask
  have hlev : ones_run (bm_len N imms) = 2 ^ bm_len N imms - 1 := ones_run_eq _
  have hlevels : bm_levels N imms = 2 ^ bm_len N imms - 1 := by
    rw [bm_levels, Nat.shiftLeft_eq, Nat.one_mul]
  have hesize : bm_esize N imms = 2 ^ bm_len N imms := by
    rw [bm_esize, Nat.shiftLeft_eq, Nat.one_mul]
  have hS : bm_S N imms < 2 ^ bm_len N imms := by
    rw [bm_S, hlevels, Nat.and_pow_two_sub_one_eq_mod]
    exact Nat.mod_lt _ (Nat.pos_pow_of_pos _ (by norm_num))
  have hR : bm_R N imms immr < 2 ^ bm_len N imms := by
    rw [bm_R, hlevels, Nat.and_pow_two_sub_one_eq_mod]
    exact Nat.mod_lt _ (Nat.pos_pow_of_pos _ (by norm_num))
  have hwelem : 2 ^ (bm_S N imms + 1) - 1 < 2 ^ 2 ^ bm_len N imms := by
    have h1 : bm_S N imms + 1 ≤ 2 ^ bm_len N imms := hS
    have h2 : (2 : Nat) ^ (bm_S N imms + 1) ≤ 2 ^ 2 ^ bm_len N imms :=
      Nat.pow_le_pow_right (by norm_num) h1
    have h3 : (0 : Nat) < 2 ^ (bm_S N imms + 1) := Nat.pos_pow_of_pos _ (by norm_num)
    omega
  have he64 : 2 ^ bm_len N imms ≤ 32 ∨ 2 ^ bm_len N imms = 64 := by
    interval_cases h : bm_len N imms <;> simp
  -- now unfold decode_bitmask
  rw [decode_bitmask]
  simp only [hN1, hs63, hr63, hxm]
  rw [show (N <<< 6) ||| (imms ^^^ 63) = bm_v N imms from rfl, hlv, ← hlv0]
  simp only
  -- the welem after rotation
  set M : Nat := if w32 then 32 else 64 with hM
  have hMval : M = 32 ∨ M = 64 := by
    rcases w32 <;> simp [hM]
  set e := 2 ^ bm_len N imms with he
  have hepos : 0 < e := Nat.pos_pow_of_pos _ (by norm_num)
  have hrun : ones_run (bm_S N imms + 1) = 2 ^ (bm_S N imms + 1) - 1 := ones_run_eq _
  have hcnt : 0 < (M + (1 <<< bm_len N imms) - 1) / (1 <<< bm_len N imms) := by
    rw [show (1 <<< bm_len N imms) = e from by rw [Nat.shiftLeft_eq, Nat.one_mul]]
    exact Nat.div_pos (by omega) hepos
  have hsh : (1 : Nat) <<< bm_len N imms = e := by rw [Nat.shiftLeft_eq, Nat.one_mul]
  have hSdef : imms &&& ones_run (bm_len N imms) = bm_S N imms := by
    rw [hlev, bm_S, hlevels]
  have hRdef : immr &&& ones_run (bm_len N imms) = bm_R N imms immr := by
    rw [hlev, bm_R, hlevels]
  refine ⟨_, rfl, ?_⟩
  rw [hesize, hsh, hSdef, hRdef, hrun]
  obtain ⟨kk, hkk⟩ : ∃ kk, (M + e - 1) / e = kk + 1 := by
    rw [hsh] at hcnt
    exact ⟨(M + e - 1) / e - 1, by omega⟩
  rw [hkk]
  have he64le : e ≤ 64 := by rcases he64 with h | h <;> omega
  have hror_lt : ror (2 ^ (bm_S N imms + 1) - 1) (bm_R N imms immr) e < 2 ^ e :=
    ror_lt he64 hR hwelem
  have hkor : kk = 0 ∨ e < 64 := by
    rcases he64 with h | h
    · right
      omega
    · left
      rcases hMval with hm | hm <;> rw [hm, h] at hkk <;> norm_num at hkk <;> omega
  rw [replicate_low hror_lt he64le hkor]
  exact rotl_ror he64 hR hwelem
theorem highest_bit_go_zero : ∀ fuel n, highest_bit_go fuel 0 n = none := by
  intro fuel
  induction fuel with
  | zero => intro n; rfl
  | succ k ih =>
    intro n
    rw [highest_bit_go]
    simp only [if_neg (by norm_num : (0 : Nat) ≠ 1)]
    exact ih n.succ

theorem decode_bitmask_some (N imms immr : Nat) (w32 : Bool)
    (hv : ((N &&& 1) <<< 6) ||| (((imms &&& 63) ^^^ 255) &&& 63) ≠ 0) :
    ∃ m, decode_bitmask N imms immr w32 = some m := by
  rw [decode_bitmask]
  have h1 : (N &&& 1) <<< 6 < 2 ^ 7 := by
    have ha : N &&& 1 ≤ 1 := Nat.and_le_right
    rw [Nat.shiftLeft_eq, show (2 : Nat) ^ 6 = 64 from rfl, show (2 : Nat) ^ 7 = 128 from rfl]
    omega
  have h2 : ((imms &&& 63) ^^^ 255) &&& 63 < 2 ^ 7 := by
    have ha : ((imms &&& 63) ^^^ 255) &&& 63 ≤ 63 := Nat.and_le_right
    rw [show (2 : Nat) ^ 7 = 128 from rfl]
    omega
  have hv128 : ((N &&& 1) <<< 6) ||| (((imms &&& 63) ^^^ 255) &&& 63) < 128 := by
    have hb : ((N &&& 1) <<< 6) ||| (((imms &&& 63) ^^^ 255) &&& 63) < 2 ^ 7 :=
      Nat.or_lt_two_pow h1 h2
    rw [show (2 : Nat) ^ 7 = 128 from rfl] at hb
    exact hb
  obtain ⟨hsome, -, -⟩ := hb_lt128 _ hv128 (Nat.pos_of_ne_zero hv)
  obtain ⟨lv, hlv⟩ := Option.isSome_iff_exists.mp hsome
  rw [hlv]
  exact ⟨_, rfl⟩

theorem find_bfm_alias_ok (op : Op) (w32 : Bool) (rd rn immr imms : Nat)
    (hop : op = .A64_SBFM ∨ op = .A64_BFM ∨ op = .A64_UBFM)
    (hno : op = .A64_UBFM → w32 = false → ¬(immr = 0 ∧ imms = 31)) :
    ∃ i, find_bfm_alias op w32 rd rn immr imms = .ok i := by
  rcases hop with h | h | h <;> subst h
  · cases w32 <;>
    · simp only [find_bfm_alias, reduceIte, reduceCtorEq]
      split_ifs <;> exact ⟨_, rfl⟩
  · cases w32 <;>
    · simp only [find_bfm_alias, reduceIte, reduceCtorEq]
      split_ifs <;> exact ⟨_, rfl⟩
  · have hno32 := hno rfl
    cases w32 <;> simp only [find_bfm_alias, reduceIte, reduceCtorEq] <;>
      split_ifs <;> first | exact ⟨_, rfl⟩ | omega |
        (exact absurd (by omega) (hno32 rfl))
theorem decode_bitmask_some2 (N imms immr : Nat) (w32 : Bool) (hN : N ≤ 1) (him : imms < 64)
    (hv : (N <<< 6) ||| (imms ^^^ 63) ≠ 0) :
    ∃ m, decode_bitmask N imms immr w32 = some m := by
  apply decode_bitmask_some
  have h1 : N &&& 1 = N := by
    rcases (by omega : N = 0 ∨ N = 1) with h | h <;> subst h <;> rfl
  have h2 : imms &&& 63 = imms := by
    rw [show (63 : Nat) = 2 ^ 6 - 1 from rfl, Nat.and_pow_two_sub_one_eq_mod,
      Nat.mod_eq_of_lt him]
  rw [h1, h2, xor_mask63 imms him]
  exact hv

theorem dpi_logic_ok (w top3 flags0 : Nat) (hf : flags0 = W32 ∨ flags0 = 0)
    (hv : ((if flags0 = W32 then 0 else (w >>> 22) &&& 1) <<< 6) |||
        (((w >>> 10) &&& 63) ^^^ 63) ≠ 0) :
    ∃ i, dpi_logic w top3 flags0 = .ok i := by
  have hsel : top3 &&& 3 ≤ 3 := Nat.and_le_right
  have him : (w >>> 10) &&& 63 < 64 := by
    have := Nat.and_le_right (n := w >>> 10) (m := 63)
    omega
  have hNle : (if (if top3 &&& 3 = 3 then flags0 ||| SET_FLAGS else flags0) &&& W32 ≠ 0
      then 0 else (w >>> 22) &&& 1) ≤ 1 := by
    split_ifs <;> first | omega | exact Nat.and_le_right
  have hNeq : (if (if top3 &&& 3 = 3 then flags0 ||| SET_FLAGS else flags0) &&& W32 ≠ 0
      then 0 else (w >>> 22) &&& 1) = (if flags0 = W32 then 0 else (w >>> 22) &&& 1) := by
    rcases hf with h | h <;> subst h <;> by_cases h3 : top3 &&& 3 = 3
    · rw [if_pos h3, if_pos (by decide : (W32 ||| SET_FLAGS) &&& W32 ≠ 0), if_pos rfl]
    · rw [if_neg h3, if_pos (by decide : W32 &&& W32 ≠ 0), if_pos rfl]
    · rw [if_pos h3, if_neg (by decide : ¬((0 ||| SET_FLAGS) &&& W32 ≠ 0)),
        if_neg (by decide : ¬((0 : Nat) = W32))]
    · rw [if_neg h3, if_neg (by decide : ¬((0 : Nat) &&& W32 ≠ 0)),
        if_neg (by decide : ¬((0 : Nat) = W32))]
  obtain ⟨m, hm⟩ := decode_bitmask_some2 _ ((w >>> 10) &&& 63) ((w >>> 16) &&& 63)
    ((if top3 &&& 3 = 3 then flags0 ||| SET_FLAGS else flags0) &&& W32 != 0)
    hNle him (by rw [hNeq]; exact hv)
  simp only [dpi_logic]
  rw [if_neg (by omega : ¬ top3 &&& 3 ≥ 4), hm]
  exact ⟨_, rfl⟩
theorem dpi_bitfield_ok (w top3 flags0 : Nat) (hf : flags0 = W32 ∨ flags0 = 0)
    (hsel3 : top3 &&& 3 ≠ 3)
    (hux : ¬(top3 &&& 3 = 2 ∧ flags0 = 0 ∧ (w >>> 16) &&& 63 = 0 ∧ (w >>> 10) &&& 63 = 31)) :
    ∃ i, dpi_bitfield w top3 flags0 = .ok i := by
  have hsel : top3 &&& 3 ≤ 3 := Nat.and_le_right
  simp only [dpi_bitfield]
  rw [if_pos (by omega : top3 &&& 3 = 0 ∨ top3 &&& 3 = 1 ∨ top3 &&& 3 = 2)]
  apply find_bfm_alias_ok
  · split_ifs <;> simp
  · intro hopU hw32f
    have h2 : top3 &&& 3 = 2 := by
      by_contra h
      rcases (by omega : top3 &&& 3 = 0 ∨ top3 &&& 3 = 1) with h0 | h1
      · rw [if_pos h0] at hopU
        exact absurd hopU (by decide)
      · rw [if_neg (by omega), if_pos h1] at hopU
        exact absurd hopU (by decide)
    have hfl0 : flags0 = 0 := by
      rcases hf with h | h
      · subst h
        exact absurd hw32f (by decide)
      · exact h
    intro hc
    exact hux ⟨h2, hfl0, hc.1, hc.2⟩


/-- C1 (amended): for every 32-bit word whose class bits place it in the
Data-Processing–Immediate class and that is not one of the panic/divergence
encodings collected in `dpi_bad` (add/sub-with-tags; bitfield `opc = 0b11`;
the 64-bit `UBFM immr=0, imms=31` word-extend encoding; logical-immediate
words whose `(N<<6) | (~imms & 0x3F)` value is zero), `data_proc_imm`
terminates and returns exactly one `Inst` record. -/
theorem C1_dpi_totality (w : Nat) (hw : w < 2 ^ 32) (hcls : (w >>> 26) &&& 7 = 4)
    (hok : ¬ dpi_bad w) : ∃ i, data_proc_imm w = .ok i := by
  rw [dpi_bad] at hok
  have hb15 : (w >>> 22) &&& 15 ≤ 15 := Nat.and_le_right
  have hflags : (if ((w >>> 29) &&& 7) &&& 4 = 0 then W32 else 0) = W32 ∨
      (if ((w >>> 29) &&& 7) &&& 4 = 0 then W32 else 0) = 0 := by
    split_ifs <;> simp
  simp only [data_proc_imm]
  generalize hk : (w >>> 22) &&& 15 = k at hok hb15
  interval_cases k
  · exact ⟨_, rfl⟩
  · exact ⟨_, rfl⟩
  · exact ⟨_, rfl⟩
  · exact ⟨_, rfl⟩
  · exact ⟨_, rfl⟩
  · exact ⟨_, rfl⟩
  · exact absurd (Or.inl (Or.inl rfl)) hok
  · exact absurd (Or.inl (Or.inr rfl)) hok
  · -- Logic, op01 = 8
    apply dpi_logic_ok _ _ _ hflags
    simp only [show ((if ((w >>> 29) &&& 7) &&& 4 = 0 then W32 else 0) = W32) ↔
        ((w >>> 29) &&& 7) &&& 4 = 0 from by split_ifs with h <;> simp [h, W32]]
    intro h0
    exact hok (Or.inr (Or.inr (Or.inr ⟨Or.inl rfl, h0⟩)))
  · -- Logic, op01 = 9
    apply dpi_logic_ok _ _ _ hflags
    simp only [show ((if ((w >>> 29) &&& 7) &&& 4 = 0 then W32 else 0) = W32) ↔
        ((w >>> 29) &&& 7) &&& 4 = 0 from by split_ifs with h <;> simp [h, W32]]
    intro h0
    exact hok (Or.inr (Or.inr (Or.inr ⟨Or.inr rfl, h0⟩)))
  · exact ⟨_, rfl⟩
  · exact ⟨_, rfl⟩
  · -- Bitfield, op01 = 12
    apply dpi_bitfield_ok _ _ _ hflags
    · intro h3
      exact hok (Or.inr (Or.inl ⟨Or.inl rfl, h3⟩))
    · rintro ⟨h2, hf0, hr0, hs31⟩
      have h4 : ((w >>> 29) &&& 7) &&& 4 ≠ 0 := by
        intro h
        rw [if_pos h] at hf0
        exact absurd hf0 (by decide)
      exact hok (Or.inr (Or.inr (Or.inl ⟨Or.inl rfl, h2, h4, hr0, hs31⟩)))
  · -- Bitfield, op01 = 13
    apply dpi_bitfield_ok _ _ _ hflags
    · intro h3
      exact hok (Or.inr (Or.inl ⟨Or.inr rfl, h3⟩))
    · rintro ⟨h2, hf0, hr0, hs31⟩
      have h4 : ((w >>> 29) &&& 7) &&& 4 ≠ 0 := by
        intro h
        rw [if_pos h] at hf0
        exact absurd hf0 (by decide)
      exact hok (Or.inr (Or.inr (Or.inl ⟨Or.inr rfl, h2, h4, hr0, hs31⟩)))
  · exact ⟨_, rfl⟩
  · exact ⟨_, rfl⟩

/-- C3: `find_bfm_alias` is exactly the six-rule first-match-wins cascade of
the spec (`find_bfm_alias_spec`), for every base operation SBFM/BFM/UBFM,
operand width, registers, and 6-bit `immr`/`imms` — including the rejection
of the unsigned `immr=0, imms=31` word-extend combination. -/
theorem C3_bfm_alias_cascade (op : Op) (w32 : Bool) (rd rn immr imms : Nat)
    (hop : op = .A64_SBFM ∨ op = .A64_BFM ∨ op = .A64_UBFM)
    (himmr : immr < 64) (himms : imms < 64) :
    find_bfm_alias op w32 rd rn immr imms = find_bfm_alias_spec op w32 rd rn immr imms := by
  rcases hop with h | h | h <;> subst h <;> cases w32 <;>
    simp only [find_bfm_alias, find_bfm_alias_spec, reduceIte, reduceCtorEq, not_false_iff,
      true_and, false_and, not_true, if_false, if_true] <;>
    split_ifs <;> first | rfl | omega
/-- C4: the compare aliases take priority over the SP-move alias: the word
0x910000BF (ADD-immediate, Rd=31, Rn=5, imm12=0, shift=0, set_flags=0)
decodes to A64_MOV_SP, and every ADDS-immediate word with Rd=31 and
set_flags=1 decodes to A64_CMN_IMM with the stored rd equal to the
zero-register sentinel 31, not the stack-pointer sentinel. -/
theorem C4_addsub_alias_priority :
    (∃ i, data_proc_imm 0x910000BF = .ok i ∧ i.op = .A64_MOV_SP ∧ i.rd = STACK_POINTER ∧
      i.rn = 5) ∧
    (∀ w : Nat, ((w >>> 22) &&& 15 = 4 ∨ (w >>> 22) &&& 15 = 5) →
      ((w >>> 29) &&& 7 = 1 ∨ (w >>> 29) &&& 7 = 5) → w &&& 31 = 31 →
      ∃ i, data_proc_imm w = .ok i ∧ i.op = .A64_CMN_IMM ∧ i.rd = ZERO_REG ∧
        i.rd ≠ STACK_POINTER) := by
  constructor
  · exact ⟨_, rfl, rfl, rfl, rfl⟩
  · intro w hop htop hrd
    rcases hop with h | h <;> rcases htop with h3 | h3 <;>
      simp only [data_proc_imm] <;> rw [h, h3] <;>
      refine ⟨_, rfl, ?_⟩ <;>
      simp [dpi_addsub, regRd, hrd, W32, SET_FLAGS, ZERO_REG, STACK_POINTER] <;> rfl

/-- C6: for every 32-bit word, each SP-aware register extractor (regRdSP,
regRnSP, regRmSP) returns the stack-pointer sentinel 100 exactly when its
5-bit field equals 31 and the raw field value otherwise, while the plain
extractors (regRd, regRn, regRm) always return the raw 5-bit field value
(0..31) and never the stack-pointer sentinel. -/
theorem C6_register_sentinels (w : Nat) (hw : w < 2 ^ 32) :
    (regRdSP w = if w &&& 31 = 31 then STACK_POINTER else w &&& 31) ∧
    (regRnSP w = if (w >>> 5) &&& 31 = 31 then STACK_POINTER else (w >>> 5) &&& 31) ∧
    (regRmSP w = if (w >>> 16) &&& 31 = 31 then STACK_POINTER else (w >>> 16) &&& 31) ∧
    (regRdSP w = STACK_POINTER ↔ w &&& 31 = 31) ∧
    (regRnSP w = STACK_POINTER ↔ (w >>> 5) &&& 31 = 31) ∧
    (regRmSP w = STACK_POINTER ↔ (w >>> 16) &&& 31 = 31) ∧
    regRd w = w &&& 31 ∧ regRn w = (w >>> 5) &&& 31 ∧ regRm w = (w >>> 16) &&& 31 ∧
    regRd w ≤ 31 ∧ regRn w ≤ 31 ∧ regRm w ≤ 31 ∧
    regRd w ≠ STACK_POINTER ∧ regRn w ≠ STACK_POINTER ∧ regRm w ≠ STACK_POINTER := by
  have h1 : w &&& 31 ≤ 31 := Nat.and_le_right
  have h2 : (w >>> 5) &&& 31 ≤ 31 := Nat.and_le_right
  have h3 : (w >>> 16) &&& 31 ≤ 31 := Nat.and_le_right
  refine ⟨rfl, rfl, rfl, ?_, ?_, ?_, rfl, rfl, rfl, h1, h2, h3, ?_, ?_, ?_⟩ <;>
    simp only [regRdSP, regRnSP, regRmSP, regRd, regRn, regRm, STACK_POINTER] <;>
    first
      | omega
      | (split_ifs <;> omega)

/-- C7: in the move-wide sub-decoder, every word whose 2-bit opc field is
the reserved pattern 0b01 decodes to the explicit unknown record (the
pristine UNKNOWN_INST with op A64_UNKNOWN — never A64_MOV_IMM or A64_MOVK),
while opc 0b00 and 0b10 decode to A64_MOV_IMM (MOVN/MOVZ normalized) and
opc 0b11 decodes to A64_MOVK. -/
theorem C7_movewide_reserved (w : Nat) (hop : (w >>> 22) &&& 15 = 10 ∨ (w >>> 22) &&& 15 = 11) :
    ∃ i, data_proc_imm w = .ok i ∧
      (((w >>> 29) &&& 7) &&& 3 = 1 → i = UNKNOWN_INST ∧ i.op = .A64_UNKNOWN ∧
        i.op ≠ .A64_MOV_IMM ∧ i.op ≠ .A64_MOVK) ∧
      (((w >>> 29) &&& 7) &&& 3 = 0 → i.op = .A64_MOV_IMM) ∧
      (((w >>> 29) &&& 7) &&& 3 = 2 → i.op = .A64_MOV_IMM) ∧
      (((w >>> 29) &&& 7) &&& 3 = 3 → i.op = .A64_MOVK) := by
  rcases hop with h | h <;>
    · simp only [data_proc_imm]
      rw [h]
      refine ⟨_, rfl, ?_, ?_, ?_, ?_⟩ <;> intro hsel <;>
        first
          | (simp [dpi_move, hsel]; exact ⟨rfl, by decide, by decide⟩)
          | simp [dpi_move, hsel]
theorem pcrel_uimm (w : Nat) :
    (w &&& (0b1111111111111111111 <<< 5)) >>> 3 = ((w >>> 5) &&& 0x7FFFF) <<< 2 := by
  apply Nat.eq_of_testBit_eq
  intro i
  rw [show (0b1111111111111111111 : Nat) = 2 ^ 19 - 1 from rfl]
  simp only [Nat.testBit_shiftRight, Nat.testBit_and, Nat.testBit_shiftLeft,
    Nat.testBit_two_pow_sub_one]
  rcases Nat.lt_or_ge i 2 with h2 | h2
  · simp [show ¬(3 + i ≥ 5) from by omega, show ¬(i ≥ 2) from by omega]
  · have e1 : 5 + (i - 2) = 3 + i := by omega
    have e5 : 3 + i - 5 = i - 2 := by omega
    simp [e1, e5, show 3 + i ≥ 5 from by omega, show i ≥ 2 from h2,
      Bool.and_comm, Bool.and_left_comm, Bool.and_assoc]

/-- C8: for every PC-relative-addressing word, `data_proc_imm` assembles a
21-bit immediate from the 19-bit high part (bits 23:5) and the 2-bit low
part (bits 30:29), sign-extends it to 64 bits, multiplies the signed result
by 4096 exactly when bit 31 selects the page-relative ADRP form and by 1
otherwise, stores it in the offset field of the record, always clears the 32-bit
width flag, and takes the destination register via the plain (non-SP)
extraction. -/
theorem C8_pcrel_decode (w : Nat) (hw : w < 2 ^ 32) (hop : (w >>> 22) &&& 15 < 4) :
    ∃ i, data_proc_imm w = .ok i ∧
      i.offset = (if w >>> 31 = 1 then 4096 else 1) *
        sext ((((w >>> 5) &&& 0x7FFFF) <<< 2) ||| ((w >>> 29) &&& 3)) 21 ∧
      i.flags &&& W32 = 0 ∧ i.rd = w &&& 31 ∧
      i.op = (if w >>> 31 = 1 then .A64_ADRP else .A64_ADR) := by
  have ha : w >>> 29 < 8 := by
    rw [Nat.shiftRight_eq_div_pow]
    apply Nat.div_lt_of_lt_mul
    calc w < 2 ^ 32 := hw
    _ = 2 ^ 29 * 8 := by norm_num
  have h31 : w >>> 31 = (w >>> 29) >>> 2 := by
    rw [show (31 : Nat) = 29 + 2 from rfl, Nat.shiftRight_add]
  have hb : (w >>> 22) &&& 15 ≤ 15 := Nat.and_le_right
  simp only [data_proc_imm, dpi_pcrel]
  rw [h31, pcrel_uimm]
  generalize hk : (w >>> 22) &&& 15 = k at hop
  generalize hA : w >>> 29 = a at ha ⊢
  interval_cases k <;> interval_cases a <;>
    exact ⟨_, rfl, rfl, by simp +decide [W32], rfl, rfl⟩

/-- C9 (amended): every word that decodes to A64_MOVK yields exactly the
default record UNKNOWN_INST with only op, rd, movk.imm16, movk.lsl and the
flags byte changed; flags equals W32 for 32-bit (bit 31 clear) words and
the default 0 for 64-bit words, so every field outside
{op, rd, movk, flags} keeps its default value. -/
theorem C9_movk_frame (w : Nat) (hw : w < 2 ^ 32)
    (hop : (w >>> 22) &&& 15 = 10 ∨ (w >>> 22) &&& 15 = 11)
    (hsel : ((w >>> 29) &&& 7) &&& 3 = 3) :
    data_proc_imm w = .ok { UNKNOWN_INST with
      op := .A64_MOVK
      flags := if w >>> 31 = 1 then 0 else W32
      rd := w &&& 31
      movk := { imm16 := (w >>> 5) &&& 0xFFFF, lsl := 16 * ((w >>> 21) &&& 3) } } := by
  have ha : w >>> 29 < 8 := by
    rw [Nat.shiftRight_eq_div_pow]
    apply Nat.div_lt_of_lt_mul
    calc w < 2 ^ 32 := hw
    _ = 2 ^ 29 * 8 := by norm_num
  have h31 : w >>> 31 = (w >>> 29) >>> 2 := by
    rw [show (31 : Nat) = 29 + 2 from rfl, Nat.shiftRight_add]
  rcases hop with h | h <;>
    · simp only [data_proc_imm, dpi_move]
      rw [h, h31]
      generalize hA : w >>> 29 = a at ha hsel ⊢
      interval_cases a <;> simp_all <;> rfl
set_option maxRecDepth 40000 in
theorem aux_addrmode : ∀ f < 256, ∀ m < 8,
    ((m <<< 5) ||| (f &&& 31)) &&& 31 = f &&& 31 ∧
    fad_get_cond ((m <<< 5) ||| (f &&& 31)) &&& 1 = fad_get_cond f &&& 1 ∧
    fad_get_mem_extend ((m <<< 5) ||| (f &&& 31)) = fad_get_mem_extend f ∧
    fad_get_prec ((m <<< 5) ||| (f &&& 31)) = fad_get_prec f := by decide

set_option maxRecDepth 40000 in
theorem aux_cond : ∀ f < 256, ∀ m < 16,
    ((m <<< 4) ||| (f &&& 15)) &&& 15 = f &&& 15 := by decide

set_option maxRecDepth 40000 in
theorem aux_memext : ∀ f < 256, ∀ m < 8,
    ((m <<< 2) ||| (f &&& 0b11100011)) &&& 0b11100011 = f &&& 0b11100011 ∧
    fad_get_addrmode ((m <<< 2) ||| (f &&& 0b11100011)) = fad_get_addrmode f := by decide

set_option maxRecDepth 40000 in
theorem aux_prec : ∀ f < 256, ∀ m < 8,
    ((m <<< 1) ||| (f &&& 0b11110001)) &&& 0b11110001 = f &&& 0b11110001 ∧
    fad_get_cond ((m <<< 1) ||| (f &&& 0b11110001)) = fad_get_cond f ∧
    fad_get_addrmode ((m <<< 1) ||| (f &&& 0b11110001)) = fad_get_addrmode f := by decide

/-- C5 (amended): every flags-byte mutator preserves exactly the bits outside
its own written range: `set_addrmode` (bits 5-7) preserves bits 0-4 — the
width bit, the set-flags bit, the mem-extend/precision sub-ranges and the
lowest bit of the condition nibble; `set_cond` (bits 4-7) preserves bits
0-3; `set_mem_extend` and `set_vec_arrangement` (bits 2-4) preserve bits
0, 1 and 5-7 — width, set-flags and address-mode; `set_prec` (bits 1-3)
preserves bits 0 and 4-7 — width, the condition nibble and address-mode.
Full pairwise isolation as claimed fails because the sub-ranges overlap
(see the counterexample). -/
theorem C5_flags_isolation (f : Nat) (hf : f < 256) (v : Nat) (hv : v < 256) :
    (set_addrmode f v &&& 31 = f &&& 31 ∧
      set_addrmode f v &&& W32 = f &&& W32 ∧
      set_addrmode f v &&& SET_FLAGS = f &&& SET_FLAGS ∧
      fad_get_cond (set_addrmode f v) &&& 1 = fad_get_cond f &&& 1 ∧
      fad_get_mem_extend (set_addrmode f v) = fad_get_mem_extend f ∧
      fad_get_prec (set_addrmode f v) = fad_get_prec f) ∧
    (set_cond f v &&& 15 = f &&& 15) ∧
    (set_mem_extend f v &&& 0b11100011 = f &&& 0b11100011 ∧
      fad_get_addrmode (set_mem_extend f v) = fad_get_addrmode f) ∧
    (set_vec_arrangement f v &&& 0b11100011 = f &&& 0b11100011 ∧
      fad_get_addrmode (set_vec_arrangement f v) = fad_get_addrmode f) ∧
    (set_prec f v &&& 0b11110001 = f &&& 0b11110001 ∧
      fad_get_cond (set_prec f v) = fad_get_cond f ∧
      fad_get_addrmode (set_prec f v) = fad_get_addrmode f) := by
  have h7 : v &&& 7 < 8 := by
    have := Nat.and_le_right (n := v) (m := 7)
    omega
  have h15 : v &&& 15 < 16 := by
    have := Nat.and_le_right (n := v) (m := 15)
    omega
  obtain ⟨a1, a2, a3, a4⟩ := aux_addrmode f hf (v &&& 7) h7
  obtain ⟨c1, c2⟩ := aux_memext f hf (v &&& 7) h7
  obtain ⟨p1, p2, p3⟩ := aux_prec f hf (v &&& 7) h7
  have b1 := aux_cond f hf (v &&& 15) h15
  have a1s : set_addrmode f v &&& 31 = f &&& 31 := a1
  refine ⟨⟨a1s, ?_, ?_, a2, a3, a4⟩, b1, ⟨c1, c2⟩, ⟨c1, c2⟩, ⟨p1, p2, p3⟩⟩
  · rw [show W32 = 31 &&& 1 from rfl, ← Nat.and_assoc, ← Nat.and_assoc, a1s]
  · rw [show SET_FLAGS = 31 &&& 2 from rfl, ← Nat.and_assoc, ← Nat.and_assoc, a1s]

set_option maxRecDepth 10000 in
/-- C10: `invert_cond` is an involution on the flags byte that flips only
the least-significant bit of the condition nibble and leaves bits 0-3
unchanged. -/
theorem C10_invert_cond_involution : ∀ f < 256, invert_cond (invert_cond f) = f ∧
    invert_cond f &&& 15 = f &&& 15 ∧
    fad_get_cond (invert_cond f) = fad_get_cond f ^^^ 1 := by decide
/-- C1 counterexample: the claim as stated is false.  The add/sub-with-tags
word 0x91800000 panics, the 32-bit logical-immediate word 0x1200FC00 with
`imms = 63` feeds `highest_bit(0)` and never terminates, and the 64-bit
unsigned word-extend bitfield word 0xD3407C00 panics — although all three
are Data-Processing–Immediate class words (class bits 28:26 = 100). -/
theorem C1_dpi_totality_counterexample :
    ((0x91800000 >>> 26) &&& 7 = 4 ∧
      data_proc_imm 0x91800000 = .fatal "ADDG, SUBG not supported") ∧
    ((0x1200FC00 >>> 26) &&& 7 = 4 ∧ data_proc_imm 0x1200FC00 = .diverge) ∧
    ((0xD3407C00 >>> 26) &&& 7 = 4 ∧
      data_proc_imm 0xD3407C00 = .fatal "find_bfm_alias: there is no UXTW instruction") := by
  exact ⟨⟨rfl, rfl⟩, ⟨rfl, rfl⟩, ⟨rfl, rfl⟩⟩

/-- C5 counterexample: `set_addrmode` writes bits 5-7, which lie inside the
condition nibble (bits 4-7): setting address mode 7 on flags byte 0 changes
`fad_get_cond` from 0 to 14, so the claimed isolation is false. -/
theorem C5_flags_isolation_counterexample : fad_get_cond (set_addrmode 0 7) = 14 ∧ fad_get_cond 0 = 0 ∧
    fad_get_cond (set_addrmode 0 7) ≠ fad_get_cond 0 := by decide

/-- C9 counterexample: the 32-bit (sf=0) MOVK word 0x72A24683 decodes with
flags = W32 ≠ 0, so the flags field — which lies outside
{op, rd, movk.imm16, movk.lsl} — does not equal its value in the default
record, refuting the claim as stated for every MOVK word. -/
theorem C9_movk_frame_counterexample : (0x72A24683 >>> 22) &&& 15 = 10 ∧ ((0x72A24683 >>> 29) &&& 7) &&& 3 = 3 ∧
    ∃ i, data_proc_imm 0x72A24683 = .ok i ∧ i.op = .A64_MOVK ∧
      i.flags ≠ UNKNOWN_INST.flags := by
  refine ⟨by decide, by decide, _, rfl, rfl, by decide⟩

/-- C1 witness: the amended theorem applied to the concrete ADD-immediate
word 0x91000000. -/
theorem C1_dpi_totality_witness : (0x91000000 < 2 ^ 32 ∧ (0x91000000 >>> 26) &&& 7 = 4 ∧
    ¬ dpi_bad 0x91000000) ∧ ∃ i, data_proc_imm 0x91000000 = .ok i :=
  ⟨⟨by norm_num, by decide, by unfold dpi_bad; decide⟩,
    C1_dpi_totality 0x91000000 (by norm_num) (by decide) (by unfold dpi_bad; decide)⟩

/-- C2 witness: the round-trip theorem applied at the concrete case of the claim,
`N=0, imms=3, immr=0, width=32`, whose returned mask is 0x0000000F. -/
theorem C2_bitmask_roundtrip_witness : (∃ m, decode_bitmask 0 3 0 true = some m ∧
    rotl (m % 2 ^ bm_esize 0 3) (bm_R 0 3 0) (bm_esize 0 3) = 2 ^ (bm_S 0 3 + 1) - 1) ∧
    decode_bitmask 0 3 0 true = some 0xF :=
  ⟨C2_bitmask_roundtrip 0 3 0 true (by norm_num) (by norm_num) (by norm_num) (by decide), by decide⟩

/-- C3 witness: the cascade equivalence applied at the concrete input
UBFM, 32-bit, `immr=0, imms=7` (the zero-extend-byte alias). -/
theorem C3_bfm_alias_cascade_witness : find_bfm_alias .A64_UBFM true 1 2 0 7 =
    find_bfm_alias_spec .A64_UBFM true 1 2 0 7 :=
  C3_bfm_alias_cascade .A64_UBFM true 1 2 0 7 (Or.inr (Or.inr rfl)) (by norm_num) (by norm_num)

/-- C4 witness: the CMN part applied at the concrete ADDS-immediate word
0xB1001C5F with Rd=31. -/
theorem C4_addsub_alias_priority_witness : ∃ i, data_proc_imm 0xB1001C5F = .ok i ∧ i.op = .A64_CMN_IMM ∧
    i.rd = ZERO_REG ∧ i.rd ≠ STACK_POINTER :=
  C4_addsub_alias_priority.2 0xB1001C5F (Or.inl (by decide)) (Or.inr (by decide)) (by decide)

/-- C5 witness: the amended theorem applied at flags byte 90, value 165. -/
theorem C5_flags_isolation_witness : (90 : Nat) < 256 ∧ (165 : Nat) < 256 ∧
    fad_get_cond (set_prec 90 165) = fad_get_cond 90 ∧
    set_addrmode 90 165 &&& 31 = 90 &&& 31 :=
  ⟨by norm_num, by norm_num, (C5_flags_isolation 90 (by norm_num) 165 (by norm_num)).2.2.2.2.2.1,
    (C5_flags_isolation 90 (by norm_num) 165 (by norm_num)).1.1⟩

/-- C6 witness: the extractor characterisation applied at the all-ones
word, where every register field is 31. -/
theorem C6_register_sentinels_witness : (4294967295 : Nat) < 2 ^ 32 ∧
    regRdSP 4294967295 = (if 4294967295 &&& 31 = 31 then STACK_POINTER
      else 4294967295 &&& 31) :=
  ⟨by norm_num, (C6_register_sentinels 4294967295 (by norm_num)).1⟩

/-- C7 witness: the move-wide theorem applied at the concrete reserved word
0x32800000 (opc = 0b01). -/
theorem C7_movewide_reserved_witness : ∃ i, data_proc_imm 0x32800000 = .ok i ∧
    (((0x32800000 >>> 29) &&& 7) &&& 3 = 1 → i = UNKNOWN_INST ∧ i.op = .A64_UNKNOWN ∧
      i.op ≠ .A64_MOV_IMM ∧ i.op ≠ .A64_MOVK) ∧
    (((0x32800000 >>> 29) &&& 7) &&& 3 = 0 → i.op = .A64_MOV_IMM) ∧
    (((0x32800000 >>> 29) &&& 7) &&& 3 = 2 → i.op = .A64_MOV_IMM) ∧
    (((0x32800000 >>> 29) &&& 7) &&& 3 = 3 → i.op = .A64_MOVK) :=
  C7_movewide_reserved 0x32800000 (Or.inl (by decide))

/-- C8 witness: the PC-relative theorem applied at the concrete ADR word
0x10000041. -/
theorem C8_pcrel_decode_witness : ∃ i, data_proc_imm 0x10000041 = .ok i ∧
    i.offset = (if 0x10000041 >>> 31 = 1 then 4096 else 1) *
      sext ((((0x10000041 >>> 5) &&& 0x7FFFF) <<< 2) ||| ((0x10000041 >>> 29) &&& 3)) 21 ∧
    i.flags &&& W32 = 0 ∧ i.rd = 0x10000041 &&& 31 ∧
    i.op = (if 0x10000041 >>> 31 = 1 then .A64_ADRP else .A64_ADR) :=
  C8_pcrel_decode 0x10000041 (by norm_num) (by decide)

/-- C9 witness: the amended frame theorem applied at the 64-bit MOVK word
0xF2A24683 (imm16 = 0x1234, hw = 1, so lsl = 16). -/
theorem C9_movk_frame_witness : data_proc_imm 0xF2A24683 = .ok { UNKNOWN_INST with
    op := .A64_MOVK
    flags := if 0xF2A24683 >>> 31 = 1 then 0 else W32
    rd := 0xF2A24683 &&& 31
    movk := { imm16 := (0xF2A24683 >>> 5) &&& 0xFFFF
              lsl := 16 * ((0xF2A24683 >>> 21) &&& 3) } } :=
  C9_movk_frame 0xF2A24683 (by norm_num) (Or.inl (by decide)) (by decide)

/-- C10 witness: the involution theorem applied at flags byte 171. -/
theorem C10_invert_cond_involution_witness : (171 : Nat) < 256 ∧ (invert_cond (invert_cond 171) = 171 ∧
    invert_cond 171 &&& 15 = 171 &&& 15 ∧
    fad_get_cond (invert_cond 171) = fad_get_cond 171 ^^^ 1) :=
  ⟨by norm_num, C10_invert_cond_involution 171 (by norm_num)⟩
end A64
